import Mathlib

/-!
# ctri: outline mesh generator and animation driver

A shallow embedding of `src/main.cpp` of `KeinR/ctri`.

* `computePolygon` is embedded over an arbitrary field `α` standing for the
  C++ `float`, with the two library functions `std::cos` and `std::sin` passed
  as parameters.  The integer part of the function (vertex count, index
  arithmetic, return value) is embedded with explicit `% 2 ^ 32` for the
  `unsigned int` arithmetic, and the exception that the `reserve` calls throw
  for a negative side count is the result `none`.  Geometric statements
  instantiate `α` with `ℝ` and `Real.cos` / `Real.sin`, i.e. they describe the
  computation carried out in exact arithmetic, with the value of the source's
  constant `PI`.
* The frame loop of `main` is embedded as a step function `frame` on an
  explicit state; the clock readings and the key events delivered by
  `glfwPollEvents` are the inputs of each iteration.  Clock readings and the
  interval are rationals; the rounding of the new deadline into the `float`
  variable `nextFrame` is the function `toFloat` of the environment.  An
  advance calls `computePolygon`; when that throws, the process terminates
  and the state records it.  The `int` variables are integers, and a
  statement that depends on `numberPolygons++` not overflowing says so.
-/

namespace Ctri

/-! ## Outline mesh generator -/

/-- The source's `static constexpr float PI = 3.14159;`: the value stored is
the `float` nearest to the decimal `3.14159`, which is `823549 / 2 ^ 18`
(`3.1415901184...`). -/
def PI {α : Type} [Field α] : α := 823549 / 262144

/-- Local state of the loop of `computePolygon`: the two vectors and the
running angle `rotation`. -/
structure PolyState (α : Type) where
  vertices : List α
  indices : List Nat
  rotation : α

/-- One iteration of the `for` loop of `computePolygon` (lines 275-290).
`ofs`, `nxt` and the pushed indices are `unsigned int`, hence the `% 2 ^ 32`. -/
def polygonStep {α : Type} [Field α] (cos sin : α → α) (m rot scl thickness : α)
    (maxVertices : Nat) (s : PolyState α) : PolyState α :=
  let x := m * cos s.rotation
  let y := m * sin s.rotation
  let ix := x - x * thickness
  let iy := y - y * thickness
  let ofs := (s.vertices.length / 2) % 2 ^ 32
  let nxt := ((ofs + 2) % 2 ^ 32) % maxVertices
  { vertices := s.vertices ++ [x * scl, y * scl, ix * scl, iy * scl]
    rotation := s.rotation + rot
    indices := s.indices ++
      [(ofs + 0) % 2 ^ 32, (nxt + 1) % 2 ^ 32, nxt,
       (ofs + 0) % 2 ^ 32, (ofs + 1) % 2 ^ 32, (nxt + 1) % 2 ^ 32] }

/-- What `computePolygon` hands to the two `glBufferData` calls, and its
return value. -/
structure PolygonResult (α : Type) where
  vertices : List α
  indices : List Nat
  ret : Nat

/-- Lines 260-298 of `computePolygon`, reached once the two `reserve` calls of
lines 262-263 have returned.  The loop `for (int i = 0; i < n; i++)` runs
`n.toNat` times. -/
def computePolygonBody {α : Type} [Field α] (cos sin : α → α) (n : Int) (scl thickness : α)
    (circum : Bool) : PolygonResult α :=
  let maxVertices : Nat := ((n * 2) % 2 ^ 32).toNat
  let m : α := if circum then 1 / cos (PI / (n : α)) else 1
  let rot : α := 2 * PI / (n : α)
  let s := (polygonStep cos sin m rot scl thickness maxVertices)^[n.toNat]
    { vertices := [], indices := [], rotation := 0 }
  { vertices := s.vertices, indices := s.indices, ret := s.indices.length % 2 ^ 32 }

/-- The function `computePolygon(int n, float scl, float thickness, bool circum)`.
For a negative `n` the call `indices.reserve(n * 6)` of line 263 converts the
negative `int` to a `size_t` beyond `max_size()` and throws
`std::length_error` (unless `vertices.reserve` of line 262 has already thrown
`std::bad_alloc`); nothing catches it.  The result `none` stands for that
exception.  A side count so large that the `int` products `n * 2` or `n * 6`
overflow has no defined behaviour in the source; statements about such side
counts are excluded by hypothesis where the products matter. -/
def computePolygon {α : Type} [Field α] (cos sin : α → α) (n : Int) (scl thickness : α)
    (circum : Bool) : Option (PolygonResult α) :=
  if n < 0 then none else some (computePolygonBody cos sin n scl thickness circum)

/-- Vertex number `j` of a buffer of interleaved `x, y` floats, as laid out
by `glVertexAttribPointer(0, 2, GL_FLOAT, GL_FALSE, 2 * sizeof(float), 0)`. -/
def vertexAt {α : Type} (vs : List α) (j : Nat) : Option (α × α) :=
  match vs[2 * j]?, vs[2 * j + 1]? with
  | some x, some y => some (x, y)
  | _, _ => none

/-- Triangle number `t` of an index buffer drawn with `GL_TRIANGLES`. -/
def triangleAt (is : List Nat) (t : Nat) : Option (Nat × Nat × Nat) :=
  match is[3 * t]?, is[3 * t + 1]?, is[3 * t + 2]? with
  | some a, some b, some c => some (a, b, c)
  | _, _, _ => none

/-! ## Animation driver -/

/-- Value of `GLFW_KEY_SPACE` in `glfw3.h`. -/
def GLFW_KEY_SPACE : Int := 32

/-- Value of `GLFW_RELEASE` in `glfw3.h`. -/
def GLFW_RELEASE : Int := 0

/-- Value of `GLFW_PRESS` in `glfw3.h`. -/
def GLFW_PRESS : Int := 1

/-- Value of `GLFW_REPEAT` in `glfw3.h`. -/
def GLFW_REPEAT : Int := 2

/-- The source's `static constexpr int STEP_KEY = GLFW_KEY_SPACE;`. -/
def STEP_KEY : Int := GLFW_KEY_SPACE

/-- The arguments of `keyCallback` that the function reads. -/
structure KeyEvent where
  key : Int
  action : Int
deriving DecidableEq, Repr

/-- The function `keyCallback`, as a transformer of the global `stepConfirmed`. -/
def keyCallback (stepConfirmed : Bool) (e : KeyEvent) : Bool :=
  if e.key = STEP_KEY ∧ (e.action = GLFW_PRESS ∨ e.action = GLFW_REPEAT) then true
  else stepConfirmed

/-- The floating-point environment of the frame loop, as functions on the
rational values of the floats: `std::cos` and `std::sin` on `float`, and
`toFloat`, the value that the assignment `nextFrame = glfwGetTime() +
animationIntervalSeconds` of line 208 stores in the `float nextFrame` when the
exact sum of its two operands is `x` (the `double` addition rounds the sum,
the conversion to `float` rounds it again). -/
structure FloatEnv where
  cos : ℚ → ℚ
  sin : ℚ → ℚ
  toFloat : ℚ → ℚ

/-- The variables of `main` that the frame loop reads and never writes
(lines 72-81, after the command line has been parsed).  The `float`
variables hold finite values, given as rationals. -/
structure Config where
  lineWidth : ℚ
  animationIntervalSeconds : ℚ
  animationEndPC : Int
  startPolygonCount : Int
  scl : ℚ
  step : Bool
  circumscribed : Bool

/-- The initialisers of lines 72-81: the values `main` uses when no flag is
given.  `0.01f` is `5368709 / 2 ^ 29` and `0.95f` is `15938355 / 2 ^ 24`. -/
def defaults : Config :=
  { lineWidth := 5368709 / 536870912
    animationIntervalSeconds := 1 / 2
    animationEndPC := 50
    startPolygonCount := 3
    scl := 15938355 / 16777216
    step := false
    circumscribed := false }

/-- The variables written by the frame loop: `numberPolygons`, `nextFrame`
and the global `stepConfirmed`.  Three history fields record what the loop
did: `drawn` lists the side counts passed to `computePolygon` at line 219, one
per advance; `resets` counts the executions of line 228; `aborted` is set when
an exception leaves `computePolygon` at line 219: nothing catches it, the
process terminates, and the variables keep the values they had. -/
structure LoopState where
  numberPolygons : Int
  nextFrame : ℚ
  stepConfirmed : Bool
  drawn : List Int
  resets : Nat
  aborted : Bool

/-- What one iteration of the loop receives from outside: the value of
`glfwGetTime()` in the test of line 206 (read only when `step` is false), the
value of the second `glfwGetTime()` at line 208 (read only when the frame
advances), and the key events delivered by `glfwPollEvents()` at line 235. -/
structure FrameInput where
  tCond : ℚ
  tBody : ℚ
  events : List KeyEvent

/-- The test of line 206: `step ? stepConfirmed : glfwGetTime() > nextFrame`. -/
def shouldAdvance (cfg : Config) (s : LoopState) (inp : FrameInput) : Bool :=
  if cfg.step then s.stepConfirmed else decide (inp.tCond > s.nextFrame)

/-- Whether line 227, reached with `numberPolygons` already incremented from
`n`, takes the reset of line 228. -/
def wraps (cfg : Config) (n : Int) : Bool :=
  decide (n + 1 ≥ cfg.animationEndPC)

/-- The body of the `if` of line 206 (lines 207-229).  Lines 207-208 clear
the flag and store the new deadline; line 219 calls
`computePolygon(numberPolygons, scl, newLnWid, circumscribed)` with
`newLnWid = lineWidth`; if the call throws, the process ends there;
otherwise lines 226-229 increment and possibly reset `numberPolygons`. -/
def advance (env : FloatEnv) (cfg : Config) (s : LoopState) (inp : FrameInput) : LoopState :=
  match computePolygon env.cos env.sin s.numberPolygons cfg.scl cfg.lineWidth
      cfg.circumscribed with
  | none =>
    { s with
      stepConfirmed := false
      nextFrame := env.toFloat (inp.tBody + cfg.animationIntervalSeconds)
      drawn := s.drawn ++ [s.numberPolygons]
      aborted := true }
  | some _ =>
    { s with
      stepConfirmed := false
      nextFrame := env.toFloat (inp.tBody + cfg.animationIntervalSeconds)
      drawn := s.drawn ++ [s.numberPolygons]
      numberPolygons :=
        if wraps cfg s.numberPolygons then cfg.startPolygonCount else s.numberPolygons + 1
      resets := if wraps cfg s.numberPolygons then s.resets + 1 else s.resets }

/-- The call `glfwPollEvents()`: the callback runs once per delivered event. -/
def pollEvents (s : LoopState) (evs : List KeyEvent) : LoopState :=
  { s with stepConfirmed := evs.foldl keyCallback s.stepConfirmed }

/-- One iteration of the `while` loop of `main` (lines 205-244).  A process
that has terminated runs no further iteration, and an iteration in which
`computePolygon` throws does not reach `glfwPollEvents()`. -/
def frame (env : FloatEnv) (cfg : Config) (s : LoopState) (inp : FrameInput) : LoopState :=
  if s.aborted then s
  else if shouldAdvance cfg s inp then
    if (advance env cfg s inp).aborted then advance env cfg s inp
    else pollEvents (advance env cfg s inp) inp.events
  else pollEvents s inp.events

/-- The state on entry to the loop: `numberPolygons = startPolygonCount`,
`nextFrame = 0`, and `stepConfirmed` holds its initialiser `true`. -/
def initState (cfg : Config) : LoopState :=
  { numberPolygons := cfg.startPolygonCount
    nextFrame := 0
    stepConfirmed := true
    drawn := []
    resets := 0
    aborted := false }

/-- The state after the loop has run once for each element of `inps`. -/
def run (env : FloatEnv) (cfg : Config) (inps : List FrameInput) : LoopState :=
  inps.foldl (frame env cfg) (initState cfg)

/-- Number of press-or-repeat events of the step key among `evs`. -/
def stepEvents (evs : List KeyEvent) : Nat :=
  evs.countP (fun e => decide (e.key = STEP_KEY ∧ (e.action = GLFW_PRESS ∨ e.action = GLFW_REPEAT)))

/-- Number of press-or-repeat events of the step key received during `inps`. -/
def stepEventsOf (inps : List FrameInput) : Nat :=
  (inps.map (fun i => stepEvents i.events)).sum

/-- A float environment for the worked examples.  Every clock reading,
interval and sum that occurs in them is a `float`, which the conversion of
line 208 leaves unchanged, so `toFloat` is the identity; `cos` and `sin` are
the small-angle polynomials, and no example depends on their values. -/
def exactEnv : FloatEnv :=
  { cos := fun x => 1 - x ^ 2 / 2
    sin := fun x => x
    toFloat := fun x => x }

/-! ## The loop of `computePolygon` -/

theorem vertexAt_isSome_iff {β : Type} (vs : List β) (j : Nat) :
    (vertexAt vs j).isSome ↔ 2 * j + 1 < vs.length := by
  unfold vertexAt
  by_cases h : 2 * j + 1 < vs.length
  · have h0 : 2 * j < vs.length := by omega
    simp [List.getElem?_eq_getElem h, List.getElem?_eq_getElem h0, h]
  · have h1 : vs[2 * j + 1]? = none := List.getElem?_eq_none (by omega)
    cases h2 : vs[2 * j]? <;> simp [h1, h]

theorem triangleAt_eq_some (is : List Nat) (t a b c : Nat) (ha : is[3 * t]? = some a)
    (hb : is[3 * t + 1]? = some b) (hc : is[3 * t + 2]? = some c) :
    triangleAt is t = some (a, b, c) := by
  simp [triangleAt, ha, hb, hc]

section Polygon

variable {α : Type} [Field α]

theorem polygonStep_vertices (cos sin : α → α) (m rot scl th : α) (mv : Nat) (s : PolyState α) :
    (polygonStep cos sin m rot scl th mv s).vertices = s.vertices ++
      [m * cos s.rotation * scl, m * sin s.rotation * scl,
       (m * cos s.rotation - m * cos s.rotation * th) * scl,
       (m * sin s.rotation - m * sin s.rotation * th) * scl] := rfl

theorem polygonStep_rotation (cos sin : α → α) (m rot scl th : α) (mv : Nat) (s : PolyState α) :
    (polygonStep cos sin m rot scl th mv s).rotation = s.rotation + rot := rfl

theorem polygonStep_indices (cos sin : α → α) (m rot scl th : α) (mv : Nat) (s : PolyState α) :
    (polygonStep cos sin m rot scl th mv s).indices = s.indices ++
      [(s.vertices.length / 2 % 2 ^ 32 + 0) % 2 ^ 32,
       ((s.vertices.length / 2 % 2 ^ 32 + 2) % 2 ^ 32 % mv + 1) % 2 ^ 32,
       (s.vertices.length / 2 % 2 ^ 32 + 2) % 2 ^ 32 % mv,
       (s.vertices.length / 2 % 2 ^ 32 + 0) % 2 ^ 32,
       (s.vertices.length / 2 % 2 ^ 32 + 1) % 2 ^ 32,
       ((s.vertices.length / 2 % 2 ^ 32 + 2) % 2 ^ 32 % mv + 1) % 2 ^ 32] := rfl

/-- After `k` iterations the loop has pushed `4 * k` floats and `6 * k`
indices, and `rotation` has been incremented `k` times. -/
theorem polygonLoop_sizes (cos sin : α → α) (m rot scl th : α) (mv : Nat) (k : Nat) :
    ((polygonStep cos sin m rot scl th mv)^[k] ⟨[], [], 0⟩).vertices.length = 4 * k ∧
    ((polygonStep cos sin m rot scl th mv)^[k] ⟨[], [], 0⟩).indices.length = 6 * k ∧
    ((polygonStep cos sin m rot scl th mv)^[k] ⟨[], [], 0⟩).rotation = (k : α) * rot := by
  induction k with
  | zero => simp
  | succ k ih =>
    obtain ⟨hv, hi, hr⟩ := ih
    rw [Function.iterate_succ_apply']
    refine ⟨?_, ?_, ?_⟩
    · rw [polygonStep_vertices, List.length_append, hv]; simp; omega
    · rw [polygonStep_indices, List.length_append, hi]; simp; omega
    · rw [polygonStep_rotation, hr]; push_cast; ring

/-- The six indices pushed for side `i`, when no `unsigned int` wraps. -/
theorem polygonLoop_indices (cos sin : α → α) (m rot scl th : α) (mv : Nat) (k i : Nat)
    (hi : i < k) (hk : 2 * k + 2 < 2 ^ 32) :
    ((polygonStep cos sin m rot scl th mv)^[k] ⟨[], [], 0⟩).indices[6 * i]? = some (2 * i) ∧
    ((polygonStep cos sin m rot scl th mv)^[k] ⟨[], [], 0⟩).indices[6 * i + 1]? =
      some ((2 * i + 2) % mv + 1) ∧
    ((polygonStep cos sin m rot scl th mv)^[k] ⟨[], [], 0⟩).indices[6 * i + 2]? =
      some ((2 * i + 2) % mv) ∧
    ((polygonStep cos sin m rot scl th mv)^[k] ⟨[], [], 0⟩).indices[6 * i + 3]? = some (2 * i) ∧
    ((polygonStep cos sin m rot scl th mv)^[k] ⟨[], [], 0⟩).indices[6 * i + 4]? =
      some (2 * i + 1) ∧
    ((polygonStep cos sin m rot scl th mv)^[k] ⟨[], [], 0⟩).indices[6 * i + 5]? =
      some ((2 * i + 2) % mv + 1) := by
  induction k with
  | zero => omega
  | succ k ih =>
    obtain ⟨hv, hl, -⟩ := polygonLoop_sizes cos sin m rot scl th mv k
    rw [Function.iterate_succ_apply', polygonStep_indices, hv]
    rcases Nat.lt_succ_iff_lt_or_eq.mp hi with h | h
    · obtain ⟨h0, h1, h2, h3, h4, h5⟩ := ih h (by omega)
      refine ⟨?_, ?_, ?_, ?_, ?_, ?_⟩
      · rw [List.getElem?_append_left (by omega)]; exact h0
      · rw [List.getElem?_append_left (by omega)]; exact h1
      · rw [List.getElem?_append_left (by omega)]; exact h2
      · rw [List.getElem?_append_left (by omega)]; exact h3
      · rw [List.getElem?_append_left (by omega)]; exact h4
      · rw [List.getElem?_append_left (by omega)]; exact h5
    · subst h
      have e1 : 4 * i / 2 % 2 ^ 32 = 2 * i := by omega
      have e2 : (2 * i + 2) % 2 ^ 32 = 2 * i + 2 := by omega
      have e3 : (2 * i + 2) % mv ≤ 2 * i + 2 := Nat.mod_le _ _
      have e4 : ((2 * i + 2) % mv + 1) % 2 ^ 32 = (2 * i + 2) % mv + 1 := by omega
      have e5 : (2 * i + 1) % 2 ^ 32 = 2 * i + 1 := by omega
      have e6 : (2 * i + 0) % 2 ^ 32 = 2 * i := by omega
      rw [e1, e2, e4, e5, e6]
      refine ⟨?_, ?_, ?_, ?_, ?_, ?_⟩
      · rw [List.getElem?_append_right (by omega), hl]; simp
      · rw [List.getElem?_append_right (by omega), hl]; simp
      · rw [List.getElem?_append_right (by omega), hl]; simp
      · rw [List.getElem?_append_right (by omega), hl]; simp
      · rw [List.getElem?_append_right (by omega), hl]; simp
      · rw [List.getElem?_append_right (by omega), hl]; simp

/-- The six index entries that the body of `computePolygon` emits for side `i`. -/
theorem body_index_entries (cos sin : α → α) (k : Nat) (scl th : α) (circum : Bool)
    (hr : k * 6 < 2 ^ 31) (i : Nat) (hi : i < k) :
    (computePolygonBody cos sin (k : Int) scl th circum).indices[6 * i]? = some (2 * i) ∧
    (computePolygonBody cos sin (k : Int) scl th circum).indices[6 * i + 1]? =
      some (2 * ((i + 1) % k) + 1) ∧
    (computePolygonBody cos sin (k : Int) scl th circum).indices[6 * i + 2]? =
      some (2 * ((i + 1) % k)) ∧
    (computePolygonBody cos sin (k : Int) scl th circum).indices[6 * i + 3]? = some (2 * i) ∧
    (computePolygonBody cos sin (k : Int) scl th circum).indices[6 * i + 4]? = some (2 * i + 1) ∧
    (computePolygonBody cos sin (k : Int) scl th circum).indices[6 * i + 5]? =
      some (2 * ((i + 1) % k) + 1) := by
  have hk : 2 * k + 2 < 2 ^ 32 := by omega
  have hmv : ((k : Int) * 2 % 2 ^ 32).toNat = 2 * k := by omega
  have hmod : (2 * i + 2) % (2 * k) = 2 * ((i + 1) % k) := by
    rw [← Nat.mul_mod_mul_left]; ring_nf
  have h := polygonLoop_indices cos sin
    (if circum then 1 / cos (PI / ((k : Int) : α)) else 1) (2 * PI / ((k : Int) : α)) scl th
    (2 * k) k i hi hk
  rw [hmod] at h
  simpa only [computePolygonBody, hmv, Int.toNat_ofNat] using h

theorem body_indices_length (cos sin : α → α) (k : Nat) (scl th : α) (circum : Bool) :
    (computePolygonBody cos sin (k : Int) scl th circum).indices.length = 6 * k := by
  simpa only [computePolygonBody, Int.toNat_ofNat] using (polygonLoop_sizes cos sin
    (if circum then 1 / cos (PI / ((k : Int) : α)) else 1) (2 * PI / ((k : Int) : α)) scl th
    ((k : Int) * 2 % 2 ^ 32).toNat k).2.1

theorem body_vertices_length (cos sin : α → α) (k : Nat) (scl th : α) (circum : Bool) :
    (computePolygonBody cos sin (k : Int) scl th circum).vertices.length = 4 * k := by
  simpa only [computePolygonBody, Int.toNat_ofNat] using (polygonLoop_sizes cos sin
    (if circum then 1 / cos (PI / ((k : Int) : α)) else 1) (2 * PI / ((k : Int) : α)) scl th
    ((k : Int) * 2 % 2 ^ 32).toNat k).1

/-- The two triangles that the body of `computePolygon` emits for side `i`. -/
theorem body_side_triangles (cos sin : α → α) (k : Nat) (scl th : α) (circum : Bool)
    (hr : k * 6 < 2 ^ 31) (i : Nat) (hi : i < k) :
    triangleAt (computePolygonBody cos sin (k : Int) scl th circum).indices (2 * i) =
      some (2 * i, 2 * ((i + 1) % k) + 1, 2 * ((i + 1) % k)) ∧
    triangleAt (computePolygonBody cos sin (k : Int) scl th circum).indices (2 * i + 1) =
      some (2 * i, 2 * i + 1, 2 * ((i + 1) % k) + 1) := by
  obtain ⟨h0, h1, h2, h3, h4, h5⟩ :=
    body_index_entries cos sin k scl th circum hr i hi
  constructor
  · exact triangleAt_eq_some _ _ _ _ _ (by rw [← h0]; congr 1; ring)
      (by rw [← h1]; congr 1; ring) (by rw [← h2]; congr 1; ring)
  · exact triangleAt_eq_some _ _ _ _ _ (by rw [← h3]; congr 1; ring)
      (by rw [← h4]; congr 1; ring) (by rw [← h5]; congr 1; ring)

/-- Every index that the body of `computePolygon` emits names one of the `2 * k` vertices. -/
theorem body_index_bound (cos sin : α → α) (k : Nat) (scl th : α) (circum : Bool)
    (hr : k * 6 < 2 ^ 31) (x : Nat)
    (hx : x ∈ (computePolygonBody cos sin (k : Int) scl th circum).indices) : x < 2 * k := by
  obtain ⟨p, hp⟩ := List.mem_iff_getElem?.mp hx
  have hlen := body_indices_length cos sin k scl th circum
  have hpl : p < 6 * k := by
    by_contra hcon
    rw [List.getElem?_eq_none (by omega)] at hp
    exact Option.noConfusion hp
  have hi : p / 6 < k := by omega
  have hj : (p / 6 + 1) % k < k := Nat.mod_lt _ (by omega)
  obtain ⟨h0, h1, h2, h3, h4, h5⟩ :=
    body_index_entries cos sin k scl th circum hr (p / 6) hi
  have hc : p % 6 < 6 := Nat.mod_lt _ (by omega)
  have hsplit : p = 6 * (p / 6) + p % 6 := by omega
  generalize p / 6 = i at *
  generalize p % 6 = c at *
  subst hsplit
  interval_cases c
  · rw [Nat.add_zero, h0] at hp; injection hp with hp; omega
  · rw [h1] at hp; injection hp with hp; omega
  · rw [h2] at hp; injection hp with hp; omega
  · rw [h3] at hp; injection hp with hp; omega
  · rw [h4] at hp; injection hp with hp; omega
  · rw [h5] at hp; injection hp with hp; omega

theorem triangleAt_isSome_iff (is : List Nat) (t : Nat) :
    (triangleAt is t).isSome ↔ 3 * t + 2 < is.length := by
  unfold triangleAt
  by_cases h : 3 * t + 2 < is.length
  · have h0 : 3 * t < is.length := by omega
    have h1 : 3 * t + 1 < is.length := by omega
    simp [List.getElem?_eq_getElem h, List.getElem?_eq_getElem h0,
      List.getElem?_eq_getElem h1, h]
  · have h2 : is[3 * t + 2]? = none := List.getElem?_eq_none (by omega)
    cases h3 : is[3 * t]? <;> cases h4 : is[3 * t + 1]? <;> simp [h2, h]

theorem succ_mod_inj (k i j : Nat) (hi : i < k) (hj : j < k)
    (h : (i + 1) % k = (j + 1) % k) : i = j := by
  rcases Nat.lt_or_ge (i + 1) k with h1 | h1 <;> rcases Nat.lt_or_ge (j + 1) k with h2 | h2
  · rw [Nat.mod_eq_of_lt h1, Nat.mod_eq_of_lt h2] at h; omega
  · have : j + 1 = k := by omega
    rw [Nat.mod_eq_of_lt h1, this, Nat.mod_self] at h; omega
  · have : i + 1 = k := by omega
    rw [Nat.mod_eq_of_lt h2, this, Nat.mod_self] at h; omega
  · omega

theorem succ_mod_ne (k i : Nat) (hk : 2 ≤ k) (hi : i < k) : (i + 1) % k ≠ i := by
  rcases Nat.lt_or_ge (i + 1) k with h1 | h1
  · rw [Nat.mod_eq_of_lt h1]; omega
  · have : i + 1 = k := by omega
    rw [this, Nat.mod_self]; omega

/-- For a side count that is not negative the `reserve` calls return and
`computePolygon` yields its buffers. -/
theorem computePolygon_of_nonneg (cos sin : α → α) (n : Int) (scl th : α) (circum : Bool)
    (h : 0 ≤ n) :
    computePolygon cos sin n scl th circum = some (computePolygonBody cos sin n scl th circum) := by
  simp [computePolygon, not_lt.mpr h]

/-- For a negative side count `computePolygon` throws. -/
theorem computePolygon_of_neg (cos sin : α → α) (n : Int) (scl th : α) (circum : Bool)
    (h : n < 0) : computePolygon cos sin n scl th circum = none := by
  simp [computePolygon, h]

end Polygon

/-! ## Claims about the outline mesh generator -/

/-- C1. For every side count `n ≥ 3` in the range where the source's `int`
expression `n * 6` does not overflow, and for any scale, thickness and mode,
`computePolygon` returns normally, emits `4 * n` floats, which are exactly
`2 * n` vertices, and `6 * n` index entries, and it returns `6 * n`. -/
theorem computePolygon_counts {α : Type} [Field α] (cos sin : α → α) (n : Int)
    (scl th : α) (circum : Bool) (hn : 3 ≤ n) (hr : n * 6 < 2 ^ 31) :
    ∃ r : PolygonResult α, computePolygon cos sin n scl th circum = some r ∧
      (r.vertices.length : Int) = 4 * n ∧
      (∀ j : Nat, (vertexAt r.vertices j).isSome ↔ (j : Int) < 2 * n) ∧
      (r.indices.length : Int) = 6 * n ∧
      (r.ret : Int) = 6 * n := by
  refine ⟨_, computePolygon_of_nonneg cos sin n scl th circum (by omega), ?_⟩
  obtain ⟨k, rfl⟩ : ∃ k : Nat, n = (k : Int) := ⟨n.toNat, by omega⟩
  have hv := body_vertices_length cos sin k scl th circum
  have hi := body_indices_length cos sin k scl th circum
  have hret : (computePolygonBody cos sin (k : Int) scl th circum).ret =
      (computePolygonBody cos sin (k : Int) scl th circum).indices.length % 2 ^ 32 := rfl
  refine ⟨by omega, ?_, by omega, by omega⟩
  intro j
  rw [vertexAt_isSome_iff, hv]
  omega

/-- Witness for C1: the spec's scenario `n = 3`, scale 1, thickness 0.1,
inscribed, gives 12 floats (6 vertices), 18 indices and return value 18. -/
theorem computePolygon_counts_witness :
    (3 : Int) ≤ 3 ∧ (3 : Int) * 6 < 2 ^ 31 ∧
    ∃ r : PolygonResult ℝ, computePolygon Real.cos Real.sin 3 1 (1 / 10) false = some r ∧
      (r.vertices.length : Int) = 4 * 3 ∧
      (∀ j : Nat, (vertexAt r.vertices j).isSome ↔ (j : Int) < 2 * 3) ∧
      (r.indices.length : Int) = 6 * 3 ∧
      (r.ret : Int) = 6 * 3 :=
  ⟨by decide, by decide,
    computePolygon_counts Real.cos Real.sin 3 1 (1 / 10) false (by decide) (by decide)⟩

/-- C2. Index ring closure. For every `n ≥ 3` in the range where the source's
`int` expression `n * 6` does not overflow: side `i` emits the two triangles
`(2i, 2j+1, 2j)` and `(2i, 2i+1, 2j+1)` with `j = (i + 1) mod n`; the last
side joins vertices `0` and `1`; the buffer holds exactly `2 * n` triangles;
every index is below `2 * n`; and any two of the `2 * n` triangles have
different vertex sets. -/
theorem computePolygon_index_ring {α : Type} [Field α] (cos sin : α → α) (n : Int)
    (scl th : α) (circum : Bool) (hn : 3 ≤ n) (hr : n * 6 < 2 ^ 31) :
    ∃ r : PolygonResult α, computePolygon cos sin n scl th circum = some r ∧
    (∀ i : Nat, (i : Int) < n →
      triangleAt r.indices (2 * i) =
        some (2 * i, 2 * ((i + 1) % n.toNat) + 1, 2 * ((i + 1) % n.toNat)) ∧
      triangleAt r.indices (2 * i + 1) =
        some (2 * i, 2 * i + 1, 2 * ((i + 1) % n.toNat) + 1)) ∧
    (triangleAt r.indices (2 * (n.toNat - 1)) = some (2 * (n.toNat - 1), 1, 0) ∧
      triangleAt r.indices (2 * (n.toNat - 1) + 1) =
        some (2 * (n.toNat - 1), 2 * (n.toNat - 1) + 1, 1)) ∧
    (∀ t : Nat, (triangleAt r.indices t).isSome ↔ (t : Int) < 2 * n) ∧
    (∀ x ∈ r.indices, (x : Int) < 2 * n) ∧
    (∀ t u : Nat, (t : Int) < 2 * n → (u : Int) < 2 * n → t ≠ u →
      ∃ a b c d e f : Nat,
        triangleAt r.indices t = some (a, b, c) ∧
        triangleAt r.indices u = some (d, e, f) ∧
        ({a, b, c} : Finset Nat) ≠ {d, e, f}) := by
  refine ⟨_, computePolygon_of_nonneg cos sin n scl th circum (by omega), ?_⟩
  obtain ⟨k, rfl⟩ : ∃ k : Nat, n = (k : Int) := ⟨n.toNat, by omega⟩
  have hk3 : 3 ≤ k := by omega
  have hr6 : k * 6 < 2 ^ 31 := by omega
  have key := body_side_triangles cos sin k scl th circum hr6
  simp only [Int.toNat_ofNat]
  refine ⟨fun i hi => key i (by omega), ?_, ?_, ?_, ?_⟩
  · have h := key (k - 1) (by omega)
    have e : (k - 1 + 1) % k = 0 := by
      rw [Nat.sub_add_cancel (by omega), Nat.mod_self]
    rw [e] at h
    exact h
  · intro t
    rw [triangleAt_isSome_iff, body_indices_length]
    omega
  · intro x hx
    have := body_index_bound cos sin k scl th circum hr6 x hx
    omega
  · intro t u ht hu htu
    obtain ⟨i, hti⟩ : ∃ i, t = 2 * i ∨ t = 2 * i + 1 := ⟨t / 2, by omega⟩
    obtain ⟨j, huj⟩ : ∃ j, u = 2 * j ∨ u = 2 * j + 1 := ⟨u / 2, by omega⟩
    have hi : i < k := by omega
    have hj : j < k := by omega
    have hi' : (i + 1) % k < k := Nat.mod_lt _ (by omega)
    have hj' : (j + 1) % k < k := Nat.mod_lt _ (by omega)
    have inj := succ_mod_inj k i j hi hj
    have nei := succ_mod_ne k i (by omega) hi
    have nej := succ_mod_ne k j (by omega) hj
    obtain ⟨ki0, ki1⟩ := key i hi
    obtain ⟨kj0, kj1⟩ := key j hj
    generalize (i + 1) % k = i' at *
    generalize (j + 1) % k = j' at *
    rcases hti with rfl | rfl <;> rcases huj with rfl | rfl
    · refine ⟨_, _, _, _, _, _, ki0, kj0, fun heq => ?_⟩
      have h1 := ((Finset.ext_iff.mp heq) (2 * i' + 1)).mp (by simp)
      simp only [Finset.mem_insert, Finset.mem_singleton] at h1
      have : i' = j' := by omega
      exact htu (by rw [inj this])
    · refine ⟨_, _, _, _, _, _, ki0, kj1, fun heq => ?_⟩
      have h1 := ((Finset.ext_iff.mp heq) (2 * j + 1)).mpr (by simp)
      have h2 := ((Finset.ext_iff.mp heq) (2 * j' + 1)).mpr (by simp)
      simp only [Finset.mem_insert, Finset.mem_singleton] at h1 h2
      omega
    · refine ⟨_, _, _, _, _, _, ki1, kj0, fun heq => ?_⟩
      have h1 := ((Finset.ext_iff.mp heq) (2 * i + 1)).mp (by simp)
      have h2 := ((Finset.ext_iff.mp heq) (2 * i' + 1)).mp (by simp)
      simp only [Finset.mem_insert, Finset.mem_singleton] at h1 h2
      omega
    · refine ⟨_, _, _, _, _, _, ki1, kj1, fun heq => ?_⟩
      have h1 := ((Finset.ext_iff.mp heq) (2 * i)).mp (by simp)
      simp only [Finset.mem_insert, Finset.mem_singleton] at h1
      omega

/-- Witness for C2: for `n = 3` the last side, side 2, emits the triangles
`(4, 1, 0)` and `(4, 5, 1)`, which join it to vertices 0 and 1 of side 0. -/
theorem computePolygon_index_ring_witness :
    (3 : Int) ≤ 3 ∧ (3 : Int) * 6 < 2 ^ 31 ∧
    ∃ r : PolygonResult ℝ, computePolygon Real.cos Real.sin 3 1 (1 / 10) false = some r ∧
      triangleAt r.indices (2 * ((3 : Int).toNat - 1)) =
        some (2 * ((3 : Int).toNat - 1), 1, 0) ∧
      triangleAt r.indices (2 * ((3 : Int).toNat - 1) + 1) =
        some (2 * ((3 : Int).toNat - 1), 2 * ((3 : Int).toNat - 1) + 1, 1) :=
  ⟨by decide, by decide,
    (computePolygon_index_ring Real.cos Real.sin 3 1 (1 / 10) false (by decide)
      (by decide)).imp fun _ h => ⟨h.1, h.2.2.1⟩⟩

theorem advance_of_nonneg (env : FloatEnv) (cfg : Config) (s : LoopState) (inp : FrameInput)
    (h : 0 ≤ s.numberPolygons) :
    advance env cfg s inp =
      { s with
        stepConfirmed := false
        nextFrame := env.toFloat (inp.tBody + cfg.animationIntervalSeconds)
        drawn := s.drawn ++ [s.numberPolygons]
        numberPolygons :=
          if wraps cfg s.numberPolygons then cfg.startPolygonCount else s.numberPolygons + 1
        resets := if wraps cfg s.numberPolygons then s.resets + 1 else s.resets } := by
  simp only [advance, computePolygon_of_nonneg _ _ _ _ _ _ h]

theorem advance_of_neg (env : FloatEnv) (cfg : Config) (s : LoopState) (inp : FrameInput)
    (h : s.numberPolygons < 0) :
    advance env cfg s inp =
      { s with
        stepConfirmed := false
        nextFrame := env.toFloat (inp.tBody + cfg.animationIntervalSeconds)
        drawn := s.drawn ++ [s.numberPolygons]
        aborted := true } := by
  simp only [advance, computePolygon_of_neg _ _ _ _ _ _ h]

theorem frame_of_aborted (env : FloatEnv) (cfg : Config) (s : LoopState) (inp : FrameInput)
    (ha : s.aborted = true) : frame env cfg s inp = s := by
  simp [frame, ha]

theorem frame_of_idle (env : FloatEnv) (cfg : Config) (s : LoopState) (inp : FrameInput)
    (ha : s.aborted = false) (h : shouldAdvance cfg s inp = false) :
    frame env cfg s inp = pollEvents s inp.events := by
  simp [frame, ha, h]

theorem frame_of_advance (env : FloatEnv) (cfg : Config) (s : LoopState) (inp : FrameInput)
    (ha : s.aborted = false) (h : shouldAdvance cfg s inp = true) (hn : 0 ≤ s.numberPolygons) :
    frame env cfg s inp = pollEvents
      { s with
        stepConfirmed := false
        nextFrame := env.toFloat (inp.tBody + cfg.animationIntervalSeconds)
        drawn := s.drawn ++ [s.numberPolygons]
        numberPolygons :=
          if wraps cfg s.numberPolygons then cfg.startPolygonCount else s.numberPolygons + 1
        resets := if wraps cfg s.numberPolygons then s.resets + 1 else s.resets }
      inp.events := by
  simp [frame, ha, h, advance_of_nonneg env cfg s inp hn]

theorem frame_of_abort (env : FloatEnv) (cfg : Config) (s : LoopState) (inp : FrameInput)
    (ha : s.aborted = false) (h : shouldAdvance cfg s inp = true) (hn : s.numberPolygons < 0) :
    frame env cfg s inp =
      { s with
        stepConfirmed := false
        nextFrame := env.toFloat (inp.tBody + cfg.animationIntervalSeconds)
        drawn := s.drawn ++ [s.numberPolygons]
        aborted := true } := by
  simp [frame, ha, h, advance_of_neg env cfg s inp hn]

theorem run_append (env : FloatEnv) (cfg : Config) (inps : List FrameInput) (x : FrameInput) :
    run env cfg (inps ++ [x]) = frame env cfg (run env cfg inps) x := by
  simp [run, List.foldl_append]

/-- Induction over the iterations of the frame loop. -/
theorem run_induction (env : FloatEnv) (cfg : Config) (P : LoopState → Prop)
    (h0 : P (initState cfg)) (hstep : ∀ s inp, P s → P (frame env cfg s inp))
    (inps : List FrameInput) : P (run env cfg inps) := by
  induction inps using List.reverseRecOn with
  | nil => exact h0
  | append_singleton l x ih => rw [run_append]; exact hstep _ _ ih

/-- Case analysis on one iteration: the process is already dead, or the frame
idles, or it advances normally, or `computePolygon` throws. -/
theorem frame_cases (env : FloatEnv) (cfg : Config) (s : LoopState) (inp : FrameInput)
    (P : LoopState → Prop)
    (hdead : s.aborted = true → P s)
    (hidle : s.aborted = false → shouldAdvance cfg s inp = false →
      P (pollEvents s inp.events))
    (hadv : s.aborted = false → shouldAdvance cfg s inp = true → 0 ≤ s.numberPolygons →
      P (pollEvents
        { s with
          stepConfirmed := false
          nextFrame := env.toFloat (inp.tBody + cfg.animationIntervalSeconds)
          drawn := s.drawn ++ [s.numberPolygons]
          numberPolygons :=
            if wraps cfg s.numberPolygons then cfg.startPolygonCount else s.numberPolygons + 1
          resets := if wraps cfg s.numberPolygons then s.resets + 1 else s.resets }
        inp.events))
    (habort : s.aborted = false → shouldAdvance cfg s inp = true → s.numberPolygons < 0 →
      P { s with
          stepConfirmed := false
          nextFrame := env.toFloat (inp.tBody + cfg.animationIntervalSeconds)
          drawn := s.drawn ++ [s.numberPolygons]
          aborted := true }) :
    P (frame env cfg s inp) := by
  cases ha : s.aborted
  · cases hs : shouldAdvance cfg s inp
    · rw [frame_of_idle env cfg s inp ha hs]; exact hidle ha hs
    · rcases lt_or_le s.numberPolygons 0 with hn | hn
      · rw [frame_of_abort env cfg s inp ha hs hn]; exact habort ha hs hn
      · rw [frame_of_advance env cfg s inp ha hs hn]; exact hadv ha hs hn
  · rw [frame_of_aborted env cfg s inp ha]; exact hdead ha

/-- The callback can only raise the flag, and raises it only on a
press-or-repeat event of the step key. -/
theorem foldl_keyCallback_le (evs : List KeyEvent) (b : Bool) :
    (if evs.foldl keyCallback b then 1 else 0) ≤ (if b then 1 else 0) + stepEvents evs := by
  induction evs generalizing b with
  | nil => simp [stepEvents]
  | cons e es ih =>
    have h := ih (keyCallback b e)
    simp only [List.foldl_cons]
    by_cases hc : e.key = STEP_KEY ∧ (e.action = GLFW_PRESS ∨ e.action = GLFW_REPEAT)
    · have e1 : stepEvents (e :: es) = stepEvents es + 1 := by
        simp only [stepEvents]
        rw [List.countP_cons_of_pos]
        simpa using hc
      rw [e1]
      split at h <;> split <;> split at h <;> omega
    · have e1 : stepEvents (e :: es) = stepEvents es := by
        simp only [stepEvents]
        rw [List.countP_cons_of_neg]
        simpa using hc
      have e2 : keyCallback b e = b := by simp only [keyCallback, if_neg hc]
      rw [e1]
      simp only [e2]
      exact ih b

theorem succ_emod_of_wrap (L a : Int) (hL : 0 < L) (h : a % L + 1 ≥ L) : (a + 1) % L = 0 := by
  have h1 : a % L < L := Int.emod_lt_of_pos a hL
  have h2 : a % L + 1 = L := by omega
  rw [← Int.emod_add_emod, h2, Int.emod_self]

theorem succ_emod_of_no_wrap (L a : Int) (hL : 0 < L) (h : a % L + 1 < L) :
    (a + 1) % L = a % L + 1 := by
  have h1 : 0 ≤ a % L := Int.emod_nonneg a (ne_of_gt hL)
  rw [← Int.emod_add_emod]
  exact Int.emod_eq_of_lt (by omega) h

/-- With a start count that is not negative, `computePolygon` never throws in
the loop: the process stays alive and `numberPolygons` stays non-negative. -/
theorem run_alive (env : FloatEnv) (cfg : Config) (inps : List FrameInput)
    (h0 : 0 ≤ cfg.startPolygonCount) :
    (run env cfg inps).aborted = false ∧ 0 ≤ (run env cfg inps).numberPolygons := by
  apply run_induction env cfg (fun s => s.aborted = false ∧ 0 ≤ s.numberPolygons)
  · exact ⟨rfl, h0⟩
  · intro s inp ⟨h1, h2⟩
    refine frame_cases env cfg s inp (fun t => t.aborted = false ∧ 0 ≤ t.numberPolygons)
      ?_ ?_ ?_ ?_
    · intro ha; rw [ha] at h1; exact Bool.noConfusion h1
    · intro _ _; exact ⟨h1, h2⟩
    · intro _ _ _
      refine ⟨h1, ?_⟩
      simp only [pollEvents]
      split <;> omega
    · intro _ _ hn; omega

/-! ## Claims about the animation driver -/

/-- C5, counterexample. With `startPolygonCount = 1` the first advance hands the
side count 1 to the generator; with `startPolygonCount = 5` and
`animationEndPC = 3` the initial `numberPolygons` is not below
`animationEndPC`. -/
theorem sideCount_invariant_counterexample :
    (∃ d ∈ (run exactEnv
        { defaults with startPolygonCount := 1, animationEndPC := 5, step := true }
        [⟨0, 0, []⟩]).drawn, d < 3) ∧
    ¬ ((run exactEnv
        { defaults with startPolygonCount := 5, animationEndPC := 3, step := true }
        []).numberPolygons < 3) := by
  decide

/-- C5, amended. If `startPolygonCount < animationEndPC`, then in every state
reached by the frame loop `numberPolygons` lies in
`[startPolygonCount, animationEndPC)`, and so does every side count handed to
`computePolygon`; these are at least 3 when `startPolygonCount` is. -/
theorem sideCount_invariant (env : FloatEnv) (cfg : Config) (inps : List FrameInput)
    (h : cfg.startPolygonCount < cfg.animationEndPC) :
    (cfg.startPolygonCount ≤ (run env cfg inps).numberPolygons ∧
      (run env cfg inps).numberPolygons < cfg.animationEndPC) ∧
    (∀ d ∈ (run env cfg inps).drawn, cfg.startPolygonCount ≤ d ∧ d < cfg.animationEndPC) ∧
    (3 ≤ cfg.startPolygonCount → ∀ d ∈ (run env cfg inps).drawn, 3 ≤ d) := by
  have key : (cfg.startPolygonCount ≤ (run env cfg inps).numberPolygons ∧
      (run env cfg inps).numberPolygons < cfg.animationEndPC) ∧
      (∀ d ∈ (run env cfg inps).drawn, cfg.startPolygonCount ≤ d ∧ d < cfg.animationEndPC) := by
    apply run_induction env cfg (fun s => (cfg.startPolygonCount ≤ s.numberPolygons ∧
      s.numberPolygons < cfg.animationEndPC) ∧
      (∀ d ∈ s.drawn, cfg.startPolygonCount ≤ d ∧ d < cfg.animationEndPC))
    · simp [initState, h]
    · intro s inp ⟨⟨h1, h2⟩, h3⟩
      have hd : ∀ d ∈ s.drawn ++ [s.numberPolygons],
          cfg.startPolygonCount ≤ d ∧ d < cfg.animationEndPC := by
        intro d hd
        rcases List.mem_append.mp hd with hd | hd
        · exact h3 d hd
        · rw [List.mem_singleton.mp hd]; exact ⟨h1, h2⟩
      refine frame_cases env cfg s inp (fun t => (cfg.startPolygonCount ≤ t.numberPolygons ∧
        t.numberPolygons < cfg.animationEndPC) ∧
        (∀ d ∈ t.drawn, cfg.startPolygonCount ≤ d ∧ d < cfg.animationEndPC)) ?_ ?_ ?_ ?_
      · intro _; exact ⟨⟨h1, h2⟩, h3⟩
      · intro _ _; exact ⟨⟨h1, h2⟩, h3⟩
      · intro _ _ _
        simp only [pollEvents, wraps]
        refine ⟨?_, hd⟩
        by_cases hw : s.numberPolygons + 1 ≥ cfg.animationEndPC
        · simp only [hw, decide_True, if_true]; omega
        · simp only [hw, decide_False]; simp; omega
      · intro _ _ _; exact ⟨⟨h1, h2⟩, hd⟩
  refine ⟨key.1, key.2, fun h3 d hd => ?_⟩
  have := (key.2 d hd).1
  omega

/-- Witness for the amended C5: the defaults `startPolygonCount = 3`,
`animationEndPC = 50`, after three timed frames. -/
theorem sideCount_invariant_witness :
    defaults.startPolygonCount < defaults.animationEndPC ∧
    ((defaults.startPolygonCount ≤ (run exactEnv defaults
          [⟨1, 1, []⟩, ⟨2, 2, []⟩, ⟨3, 3, []⟩]).numberPolygons ∧
        (run exactEnv defaults
          [⟨1, 1, []⟩, ⟨2, 2, []⟩, ⟨3, 3, []⟩]).numberPolygons < defaults.animationEndPC) ∧
      (∀ d ∈ (run exactEnv defaults [⟨1, 1, []⟩, ⟨2, 2, []⟩, ⟨3, 3, []⟩]).drawn,
        defaults.startPolygonCount ≤ d ∧ d < defaults.animationEndPC) ∧
      (3 ≤ defaults.startPolygonCount → ∀ d ∈ (run exactEnv defaults
          [⟨1, 1, []⟩, ⟨2, 2, []⟩, ⟨3, 3, []⟩]).drawn, 3 ≤ d)) :=
  ⟨by decide, sideCount_invariant exactEnv defaults
    [⟨1, 1, []⟩, ⟨2, 2, []⟩, ⟨3, 3, []⟩] (by decide)⟩

/-- With a start count that is not negative the loop can always be driven to
one more advance: any number of advances is reached, without the process
terminating, by some sequence of clock readings and key events. -/
theorem advances_unbounded (env : FloatEnv) (cfg : Config) (h0 : 0 ≤ cfg.startPolygonCount)
    (m : Nat) :
    ∃ inps : List FrameInput,
      (run env cfg inps).drawn.length = m ∧ (run env cfg inps).aborted = false := by
  induction m with
  | zero => exact ⟨[], rfl, rfl⟩
  | succ m ih =>
    obtain ⟨inps, hl, -⟩ := ih
    obtain ⟨hal, hnn⟩ := run_alive env cfg inps h0
    cases hstep : cfg.step
    · refine ⟨inps ++ [⟨(run env cfg inps).nextFrame + 1, (run env cfg inps).nextFrame + 1, []⟩],
        ?_, (run_alive env cfg _ h0).1⟩
      have hadv : shouldAdvance cfg (run env cfg inps)
          ⟨(run env cfg inps).nextFrame + 1, (run env cfg inps).nextFrame + 1, []⟩ = true := by
        simp [shouldAdvance, hstep]
      rw [run_append, frame_of_advance _ _ _ _ hal hadv hnn]
      simp [pollEvents, hl]
    · cases hflag : (run env cfg inps).stepConfirmed
      · have hidle : shouldAdvance cfg (run env cfg inps) ⟨0, 0, [⟨32, 1⟩]⟩ = false := by
          simp [shouldAdvance, hstep, hflag]
        have hs1 : run env cfg (inps ++ [⟨0, 0, [⟨32, 1⟩]⟩]) =
            pollEvents (run env cfg inps) [⟨32, 1⟩] := by
          rw [run_append, frame_of_idle _ _ _ _ hal hidle]
        have hadv : shouldAdvance cfg (run env cfg (inps ++ [⟨0, 0, [⟨32, 1⟩]⟩]))
            ⟨0, 0, []⟩ = true := by
          rw [hs1]
          simp [shouldAdvance, hstep, pollEvents, keyCallback, STEP_KEY, GLFW_KEY_SPACE,
            GLFW_PRESS]
        obtain ⟨hal1, hnn1⟩ := run_alive env cfg (inps ++ [⟨0, 0, [⟨32, 1⟩]⟩]) h0
        refine ⟨(inps ++ [⟨0, 0, [⟨32, 1⟩]⟩]) ++ [⟨0, 0, []⟩], ?_, (run_alive env cfg _ h0).1⟩
        rw [run_append, frame_of_advance _ _ _ _ hal1 hadv hnn1, hs1]
        simp [pollEvents, hl]
      · have hadv : shouldAdvance cfg (run env cfg inps) ⟨0, 0, []⟩ = true := by
          simp [shouldAdvance, hstep, hflag]
        refine ⟨inps ++ [⟨0, 0, []⟩], ?_, (run_alive env cfg _ h0).1⟩
        rw [run_append, frame_of_advance _ _ _ _ hal hadv hnn]
        simp [pollEvents, hl]

/-- The side counts drawn so far follow the wraparound formula, and
`numberPolygons` holds the value that the next advance will draw. -/
theorem drawn_formula (env : FloatEnv) (cfg : Config) (inps : List FrameInput)
    (h : cfg.startPolygonCount < cfg.animationEndPC) (h0 : 0 ≤ cfg.startPolygonCount) :
    (∀ k : Nat, k < (run env cfg inps).drawn.length →
      (run env cfg inps).drawn[k]? = some (cfg.startPolygonCount +
        (k : Int) % (cfg.animationEndPC - cfg.startPolygonCount))) ∧
    (run env cfg inps).numberPolygons = cfg.startPolygonCount +
      ((run env cfg inps).drawn.length : Int) %
        (cfg.animationEndPC - cfg.startPolygonCount) := by
  have hL : 0 < cfg.animationEndPC - cfg.startPolygonCount := by omega
  apply run_induction env cfg (fun s => (∀ k : Nat, k < s.drawn.length →
      s.drawn[k]? = some (cfg.startPolygonCount +
        (k : Int) % (cfg.animationEndPC - cfg.startPolygonCount))) ∧
    s.numberPolygons = cfg.startPolygonCount +
      (s.drawn.length : Int) % (cfg.animationEndPC - cfg.startPolygonCount))
  · simp [initState]
  · intro s inp ⟨h1, h2⟩
    have hn : 0 ≤ (s.drawn.length : Int) % (cfg.animationEndPC - cfg.startPolygonCount) :=
      Int.emod_nonneg _ (ne_of_gt hL)
    refine frame_cases env cfg s inp (fun t => (∀ k : Nat, k < t.drawn.length →
        t.drawn[k]? = some (cfg.startPolygonCount +
          (k : Int) % (cfg.animationEndPC - cfg.startPolygonCount))) ∧
      t.numberPolygons = cfg.startPolygonCount +
        (t.drawn.length : Int) % (cfg.animationEndPC - cfg.startPolygonCount)) ?_ ?_ ?_ ?_
    · intro _; exact ⟨h1, h2⟩
    · intro _ _; exact ⟨h1, h2⟩
    · intro _ _ _
      simp only [pollEvents, wraps, List.length_append, List.length_singleton]
      refine ⟨?_, ?_⟩
      · intro k hk
        rcases Nat.lt_succ_iff_lt_or_eq.mp hk with hlt | heq
        · rw [List.getElem?_append_left hlt]; exact h1 k hlt
        · rw [List.getElem?_append_right (by omega), heq, Nat.sub_self, h2]; rfl
      · by_cases hw : s.numberPolygons + 1 ≥ cfg.animationEndPC
        · simp only [hw, decide_True, if_true]
          push_cast
          rw [succ_emod_of_wrap _ _ hL (by omega)]
          simp
        · simp only [hw, decide_False]
          push_cast
          rw [succ_emod_of_no_wrap _ _ hL (by omega)]
          omega
    · intro _ _ hneg; omega

/-- C6. Animation wraparound. If `0 ≤ startPolygonCount < animationEndPC` (and
`animationEndPC * 6 ≤ 2 ^ 31`, so that `n * 6` in `computePolygon` does not
overflow for any side count below `animationEndPC`), the process never
terminates in `computePolygon`; the side count drawn by advance number `k`
(counting from 0) is
`startPolygonCount + k mod (animationEndPC - startPolygonCount)`;
`numberPolygons` holds the value that the next advance will draw; and the
loop can be driven to any number of advances, so the sequence goes on
indefinitely. -/
theorem advance_sequence (env : FloatEnv) (cfg : Config) (inps : List FrameInput)
    (h : cfg.startPolygonCount < cfg.animationEndPC) (h0 : 0 ≤ cfg.startPolygonCount)
    (_hrange : cfg.animationEndPC * 6 ≤ 2 ^ 31) :
    (run env cfg inps).aborted = false ∧
    (∀ k : Nat, k < (run env cfg inps).drawn.length →
      (run env cfg inps).drawn[k]? = some (cfg.startPolygonCount +
        (k : Int) % (cfg.animationEndPC - cfg.startPolygonCount))) ∧
    (run env cfg inps).numberPolygons = cfg.startPolygonCount +
      ((run env cfg inps).drawn.length : Int) %
        (cfg.animationEndPC - cfg.startPolygonCount) ∧
    (∀ m : Nat, ∃ js : List FrameInput,
      (run env cfg js).drawn.length = m ∧ (run env cfg js).aborted = false) :=
  ⟨(run_alive env cfg inps h0).1, (drawn_formula env cfg inps h h0).1,
    (drawn_formula env cfg inps h h0).2, advances_unbounded env cfg h0⟩

/-- Witness for C6: `startPolygonCount = 3`, `animationEndPC = 5`, five step
presses; the drawn sequence is 3, 4, 3, 4, 3. -/
theorem advance_sequence_witness :
    (3 : Int) < 5 ∧ (0 : Int) ≤ 3 ∧ (5 : Int) * 6 ≤ 2 ^ 31 ∧
    (run exactEnv { defaults with animationEndPC := 5, step := true }
      (List.replicate 5 ⟨0, 0, [⟨32, 1⟩]⟩)).drawn = [3, 4, 3, 4, 3] ∧
    (run exactEnv { defaults with animationEndPC := 5, step := true }
      (List.replicate 5 ⟨0, 0, [⟨32, 1⟩]⟩)).aborted = false ∧
    (∀ k : Nat, k < (run exactEnv { defaults with animationEndPC := 5, step := true }
        (List.replicate 5 ⟨0, 0, [⟨32, 1⟩]⟩)).drawn.length →
      (run exactEnv { defaults with animationEndPC := 5, step := true }
        (List.replicate 5 ⟨0, 0, [⟨32, 1⟩]⟩)).drawn[k]? =
        some ((3 : Int) + (k : Int) % (5 - 3))) :=
  ⟨by decide, by decide, by decide, by decide,
    (advance_sequence exactEnv { defaults with animationEndPC := 5, step := true }
      (List.replicate 5 ⟨0, 0, [⟨32, 1⟩]⟩) (by decide) (by decide) (by decide)).1,
    (advance_sequence exactEnv { defaults with animationEndPC := 5, step := true }
      (List.replicate 5 ⟨0, 0, [⟨32, 1⟩]⟩) (by decide) (by decide) (by decide)).2.1⟩

/-- C7, counterexample. In step mode the first frame advances although no key
event has been received: one advance, zero press-or-repeat events. -/
theorem step_mode_counterexample :
    (run exactEnv { defaults with step := true } [⟨0, 0, []⟩]).drawn = [3] ∧
    stepEventsOf [⟨0, 0, []⟩] = 0 ∧
    ¬ ((run exactEnv { defaults with step := true } [⟨0, 0, []⟩]).drawn.length ≤
      stepEventsOf [⟨0, 0, []⟩]) := by
  decide

/-- C7, amended. In step mode a frame advances exactly when `stepConfirmed` is
set, each advance clears it, only a press-or-repeat event of the step key sets
it again, and it is set on entry to the loop; so the number of advances, plus
one if the flag is still pending, never exceeds one plus the number of
press-or-repeat events received. -/
theorem step_mode_advances (env : FloatEnv) (cfg : Config) (h : cfg.step = true) :
    (∀ s inp, shouldAdvance cfg s inp = s.stepConfirmed) ∧
    (∀ s inp, (advance env cfg s inp).stepConfirmed = false) ∧
    (initState cfg).stepConfirmed = true ∧
    (∀ inps : List FrameInput,
      (run env cfg inps).drawn.length + (if (run env cfg inps).stepConfirmed then 1 else 0) ≤
        1 + stepEventsOf inps) := by
  have hsa : ∀ s inp, shouldAdvance cfg s inp = s.stepConfirmed :=
    fun s inp => by simp [shouldAdvance, h]
  refine ⟨hsa, fun s inp => ?_, rfl, ?_⟩
  · rcases lt_or_le s.numberPolygons 0 with hn | hn
    · rw [advance_of_neg env cfg s inp hn]
    · rw [advance_of_nonneg env cfg s inp hn]
  intro inps
  induction inps using List.reverseRecOn with
  | nil => simp [run, initState, stepEventsOf]
  | append_singleton l x ih =>
    have hsum : stepEventsOf (l ++ [x]) = stepEventsOf l + stepEvents x.events := by
      simp [stepEventsOf, List.map_append, List.sum_append]
    rw [run_append, hsum]
    have hk := foldl_keyCallback_le x.events false
    simp only [Bool.false_eq_true, if_false] at hk
    refine frame_cases env cfg (run env cfg l) x (fun t =>
      t.drawn.length + (if t.stepConfirmed then 1 else 0) ≤
        1 + (stepEventsOf l + stepEvents x.events)) ?_ ?_ ?_ ?_
    · intro _; omega
    · intro _ hidle
      rw [hsa] at hidle
      simp only [pollEvents, hidle]
      rw [hidle] at ih
      simp only [Bool.false_eq_true, if_false] at ih
      omega
    · intro _ hadv _
      rw [hsa] at hadv
      rw [hadv] at ih
      simp only [pollEvents, List.length_append, List.length_singleton]
      simp only [if_true] at ih
      omega
    · intro _ hadv _
      rw [hsa] at hadv
      rw [hadv] at ih
      simp only [List.length_append, List.length_singleton, Bool.false_eq_true, if_false]
      simp only [if_true] at ih
      omega

/-- Witness for the amended C7: step mode, three frames, one press of the space
bar during the second frame. -/
theorem step_mode_advances_witness :
    ({ defaults with step := true } : Config).step = true ∧
    (run exactEnv { defaults with step := true }
      [⟨0, 0, []⟩, ⟨0, 0, [⟨32, 1⟩]⟩, ⟨0, 0, []⟩]).drawn = [3, 4] ∧
    (run exactEnv { defaults with step := true }
        [⟨0, 0, []⟩, ⟨0, 0, [⟨32, 1⟩]⟩, ⟨0, 0, []⟩]).drawn.length +
      (if (run exactEnv { defaults with step := true }
          [⟨0, 0, []⟩, ⟨0, 0, [⟨32, 1⟩]⟩, ⟨0, 0, []⟩]).stepConfirmed then 1 else 0) ≤
      1 + stepEventsOf [⟨0, 0, []⟩, ⟨0, 0, [⟨32, 1⟩]⟩, ⟨0, 0, []⟩] :=
  ⟨rfl, by decide,
    (step_mode_advances exactEnv { defaults with step := true } rfl).2.2.2
      [⟨0, 0, []⟩, ⟨0, 0, [⟨32, 1⟩]⟩, ⟨0, 0, []⟩]⟩

/-- C8, counterexample. Timed mode, interval 0.5, first frame: the test reads the
clock at `t = 1` and advances, the body reads it again at 2, and `nextFrame`
becomes 2.5, not `t + interval = 1.5`. -/
theorem timed_deadline_counterexample :
    shouldAdvance defaults (initState defaults) ⟨1, 2, []⟩ = true ∧
    (frame exactEnv defaults (initState defaults) ⟨1, 2, []⟩).nextFrame ≠ 1 + 1 / 2 := by
  have hadv : shouldAdvance defaults (initState defaults) ⟨1, 2, []⟩ = true := by
    norm_num [shouldAdvance, initState, defaults]
  refine ⟨hadv, ?_⟩
  rw [frame_of_advance exactEnv defaults _ _ rfl hadv (by decide)]
  norm_num [pollEvents, exactEnv, defaults]

/-- C8, amended. In timed mode a frame of the running loop whose test reads the
clock at `t` advances if and only if `t > nextFrame`; when it advances,
`nextFrame` becomes the `float` that line 208 stores for `t' + interval`,
where `t'` is the second clock reading, taken in the body; when it does not
advance, `numberPolygons`, `nextFrame` and the list of drawn side counts are
unchanged. -/
theorem timed_frame (env : FloatEnv) (cfg : Config) (s : LoopState) (inp : FrameInput)
    (h : cfg.step = false) (ha : s.aborted = false) :
    (shouldAdvance cfg s inp = true ↔ inp.tCond > s.nextFrame) ∧
    (shouldAdvance cfg s inp = true →
      (frame env cfg s inp).nextFrame =
        env.toFloat (inp.tBody + cfg.animationIntervalSeconds) ∧
      (frame env cfg s inp).drawn = s.drawn ++ [s.numberPolygons]) ∧
    (shouldAdvance cfg s inp = false →
      (frame env cfg s inp).numberPolygons = s.numberPolygons ∧
      (frame env cfg s inp).nextFrame = s.nextFrame ∧
      (frame env cfg s inp).drawn = s.drawn) := by
  refine ⟨by simp [shouldAdvance, h], fun hadv => ?_, fun hadv => ?_⟩
  · rcases lt_or_le s.numberPolygons 0 with hn | hn
    · rw [frame_of_abort env cfg s inp ha hadv hn]
      exact ⟨rfl, rfl⟩
    · rw [frame_of_advance env cfg s inp ha hadv hn]
      exact ⟨rfl, rfl⟩
  · rw [frame_of_idle env cfg s inp ha hadv]
    exact ⟨rfl, rfl, rfl⟩

/-- Witness for the amended C8: the first frame of the default timed
configuration, with clock readings 1 and 2, advances and sets `nextFrame` to
2.5, a value that the conversion to `float` leaves unchanged. -/
theorem timed_frame_witness :
    defaults.step = false ∧ (initState defaults).aborted = false ∧
    (frame exactEnv defaults (initState defaults) ⟨1, 2, []⟩).nextFrame =
      exactEnv.toFloat (2 + defaults.animationIntervalSeconds) ∧
    (frame exactEnv defaults (initState defaults) ⟨1, 2, []⟩).drawn =
      (initState defaults).drawn ++ [(initState defaults).numberPolygons] :=
  ⟨rfl, rfl, (timed_frame exactEnv defaults (initState defaults) ⟨1, 2, []⟩ rfl rfl).2.1
    (by norm_num [shouldAdvance, initState, defaults])⟩

/-- C9, counterexample. With `startPolygonCount = 5 ≥ animationEndPC = 3` the
first advance already takes the reset of line 228. -/
theorem no_wrap_counterexample :
    (3 : Int) ≤ 5 ∧
    (run exactEnv { defaults with startPolygonCount := 5, animationEndPC := 3, step := true }
      [⟨0, 0, []⟩]).drawn = [5] ∧
    (run exactEnv { defaults with startPolygonCount := 5, animationEndPC := 3, step := true }
      [⟨0, 0, []⟩]).resets = 1 := by
  decide

/-- C9, amended. If `startPolygonCount ≥ animationEndPC` and
`0 ≤ startPolygonCount` (so that `computePolygon` does not throw; and
`startPolygonCount * 6 < 2 ^ 31`, so that neither `n * 6` in
`computePolygon` nor the increment of `numberPolygons` overflows `int`),
every advance takes the reset: the
process stays alive, the number of resets equals the number of advances,
`numberPolygons` is `startPolygonCount` at every frame boundary, and every
side count drawn is `startPolygonCount`. -/
theorem reset_every_advance (env : FloatEnv) (cfg : Config) (inps : List FrameInput)
    (h : cfg.animationEndPC ≤ cfg.startPolygonCount) (h0 : 0 ≤ cfg.startPolygonCount)
    (_hrange : cfg.startPolygonCount * 6 < 2 ^ 31) :
    (run env cfg inps).aborted = false ∧
    (run env cfg inps).resets = (run env cfg inps).drawn.length ∧
    (run env cfg inps).numberPolygons = cfg.startPolygonCount ∧
    (∀ d ∈ (run env cfg inps).drawn, d = cfg.startPolygonCount) := by
  refine ⟨(run_alive env cfg inps h0).1, ?_⟩
  apply run_induction env cfg (fun s => s.resets = s.drawn.length ∧
    s.numberPolygons = cfg.startPolygonCount ∧ (∀ d ∈ s.drawn, d = cfg.startPolygonCount))
  · simp [initState]
  · intro s inp ⟨h1, h2, h3⟩
    refine frame_cases env cfg s inp (fun t => t.resets = t.drawn.length ∧
      t.numberPolygons = cfg.startPolygonCount ∧
      (∀ d ∈ t.drawn, d = cfg.startPolygonCount)) ?_ ?_ ?_ ?_
    · intro _; exact ⟨h1, h2, h3⟩
    · intro _ _; exact ⟨h1, h2, h3⟩
    · intro _ _ _
      have hw : s.numberPolygons + 1 ≥ cfg.animationEndPC := by omega
      simp only [pollEvents, wraps, hw, decide_True, if_true, List.length_append,
        List.length_singleton]
      refine ⟨by omega, trivial, ?_⟩
      intro d hd
      rcases List.mem_append.mp hd with hd | hd
      · exact h3 d hd
      · rw [List.mem_singleton.mp hd]; exact h2
    · intro _ _ hneg; omega

/-- Witness for the amended C9: `startPolygonCount = 5`, `animationEndPC = 3`,
two step-mode frames with a press in the first. -/
theorem reset_every_advance_witness :
    (3 : Int) ≤ 5 ∧ (0 : Int) ≤ 5 ∧ (5 : Int) * 6 < 2 ^ 31 ∧
    (run exactEnv { defaults with startPolygonCount := 5, animationEndPC := 3, step := true }
      [⟨0, 0, [⟨32, 1⟩]⟩, ⟨0, 0, []⟩]).resets = 2 ∧
    (run exactEnv { defaults with startPolygonCount := 5, animationEndPC := 3, step := true }
      [⟨0, 0, [⟨32, 1⟩]⟩, ⟨0, 0, []⟩]).aborted = false ∧
    (run exactEnv { defaults with startPolygonCount := 5, animationEndPC := 3, step := true }
      [⟨0, 0, [⟨32, 1⟩]⟩, ⟨0, 0, []⟩]).resets =
      (run exactEnv { defaults with startPolygonCount := 5, animationEndPC := 3, step := true }
        [⟨0, 0, [⟨32, 1⟩]⟩, ⟨0, 0, []⟩]).drawn.length ∧
    (run exactEnv { defaults with startPolygonCount := 5, animationEndPC := 3, step := true }
      [⟨0, 0, [⟨32, 1⟩]⟩, ⟨0, 0, []⟩]).numberPolygons = 5 ∧
    (∀ d ∈ (run exactEnv
        { defaults with startPolygonCount := 5, animationEndPC := 3, step := true }
        [⟨0, 0, [⟨32, 1⟩]⟩, ⟨0, 0, []⟩]).drawn, d = 5) :=
  ⟨by decide, by decide, by decide, by decide,
    reset_every_advance exactEnv
      { defaults with startPolygonCount := 5, animationEndPC := 3, step := true }
      [⟨0, 0, [⟨32, 1⟩]⟩, ⟨0, 0, []⟩] (by decide) (by decide) (by decide)⟩

/-- Timed mode with a non-positive interval, from any live state with a
non-negative side count: the stored deadline is the rounding of a sum that is
at most the clock reading `t'` of the advance, so it does not exceed any
`float` `f ≥ t'`; if the first test reads the clock after `nextFrame` and
each later test reads it after such an `f`, every frame advances. -/
theorem timed_all_advance (env : FloatEnv) (cfg : Config) (h : cfg.step = false)
    (hi : cfg.animationIntervalSeconds ≤ 0) (hmono : Monotone env.toFloat)
    (h0 : 0 ≤ cfg.startPolygonCount) (inps : List FrameInput) (s : LoopState)
    (hal : s.aborted = false) (hnn : 0 ≤ s.numberPolygons)
    (hfirst : ∀ a ∈ inps.head?, s.nextFrame < a.tCond)
    (hclock : List.Chain' (fun a b : FrameInput =>
      ∃ f : ℚ, env.toFloat f = f ∧ a.tBody ≤ f ∧ f < b.tCond) inps) :
    (inps.foldl (frame env cfg) s).drawn.length = s.drawn.length + inps.length ∧
    (inps.foldl (frame env cfg) s).aborted = false := by
  induction inps generalizing s with
  | nil => exact ⟨by simp, hal⟩
  | cons x xs ih =>
    have hx : s.nextFrame < x.tCond := hfirst x (by simp)
    have hadv : shouldAdvance cfg s x = true := by simp [shouldAdvance, h, hx]
    rw [List.foldl_cons, frame_of_advance env cfg s x hal hadv hnn]
    have key := ih (pollEvents
      { s with
        stepConfirmed := false
        nextFrame := env.toFloat (x.tBody + cfg.animationIntervalSeconds)
        drawn := s.drawn ++ [s.numberPolygons]
        numberPolygons :=
          if wraps cfg s.numberPolygons then cfg.startPolygonCount else s.numberPolygons + 1
        resets := if wraps cfg s.numberPolygons then s.resets + 1 else s.resets }
      x.events) hal (by simp only [pollEvents]; split <;> omega) ?_ hclock.tail
    · refine ⟨?_, key.2⟩
      rw [key.1]
      simp only [pollEvents, List.length_append, List.length_cons, List.length_nil]
      omega
    · intro a ha
      cases xs with
      | nil => simp at ha
      | cons y ys =>
        simp only [List.head?_cons, Option.mem_def, Option.some.injEq] at ha
        subst ha
        obtain ⟨f, hf, hf1, hf2⟩ := (List.chain'_cons.mp hclock).1
        simp only [pollEvents]
        have hle : env.toFloat (x.tBody + cfg.animationIntervalSeconds) ≤ env.toFloat f :=
          hmono (by linarith)
        rw [hf] at hle
        linarith

/-- C10, counterexample. Timed mode, interval 0, the non-decreasing clock
readings 1, 1, 1, 1: the second frame is not a deadline hit. With interval
-1 and a first clock reading of 0 the first frame is not a deadline hit. -/
theorem nonpositive_interval_counterexample :
    (run exactEnv { defaults with animationIntervalSeconds := 0 }
      [⟨1, 1, []⟩, ⟨1, 1, []⟩]).drawn.length = 1 ∧
    shouldAdvance { defaults with animationIntervalSeconds := 0 }
      (run exactEnv { defaults with animationIntervalSeconds := 0 } [⟨1, 1, []⟩])
      ⟨1, 1, []⟩ = false ∧
    shouldAdvance { defaults with animationIntervalSeconds := -1 }
      (initState { defaults with animationIntervalSeconds := -1 }) ⟨0, 0, []⟩ = false := by
  have e : run exactEnv { defaults with animationIntervalSeconds := 0 } [⟨1, 1, []⟩] =
      pollEvents
        { initState { defaults with animationIntervalSeconds := 0 } with
          stepConfirmed := false
          nextFrame := 1
          drawn := [3]
          numberPolygons := 4 } [] := by
    have hadv : shouldAdvance { defaults with animationIntervalSeconds := 0 }
        (initState { defaults with animationIntervalSeconds := 0 }) ⟨1, 1, []⟩ = true := by
      norm_num [shouldAdvance, initState, defaults]
    rw [show ([⟨1, 1, []⟩] : List FrameInput) = [] ++ [⟨1, 1, []⟩] from rfl, run_append,
      show run exactEnv { defaults with animationIntervalSeconds := 0 } [] =
        initState { defaults with animationIntervalSeconds := 0 } from rfl,
      frame_of_advance _ _ _ _ rfl hadv (by decide)]
    norm_num [pollEvents, exactEnv, defaults, initState, wraps]
  have hidle : shouldAdvance { defaults with animationIntervalSeconds := 0 }
      (run exactEnv { defaults with animationIntervalSeconds := 0 } [⟨1, 1, []⟩])
      ⟨1, 1, []⟩ = false := by
    rw [e]
    norm_num [shouldAdvance, pollEvents, defaults]
  refine ⟨?_, hidle, by norm_num [shouldAdvance, initState, defaults]⟩
  rw [show ([⟨1, 1, []⟩, ⟨1, 1, []⟩] : List FrameInput) = [⟨1, 1, []⟩] ++ [⟨1, 1, []⟩] from rfl,
    run_append, frame_of_idle _ _ _ _ (by rw [e]; rfl) hidle, e]
  rfl

/-- C10, amended. In timed mode with interval `≤ 0` and side counts for which
`computePolygon` is defined (`0 ≤ startPolygonCount`, and
`startPolygonCount * 6 < 2 ^ 31`, `animationEndPC * 6 ≤ 2 ^ 31` so that
`n * 6` does not overflow), every frame advances provided the first clock
reading is
greater than 0 and, between the clock reading `t'` taken by each advance and
the reading `t` tested by the next frame, the clock passes a value `f` that is
a `float` (`t' ≤ f < t`); the conversion to `float` is monotone. -/
theorem nonpositive_interval_all_advance (env : FloatEnv) (cfg : Config)
    (inps : List FrameInput) (h : cfg.step = false)
    (hi : cfg.animationIntervalSeconds ≤ 0) (hmono : Monotone env.toFloat)
    (h0 : 0 ≤ cfg.startPolygonCount)
    (_hrange : cfg.startPolygonCount * 6 < 2 ^ 31 ∧ cfg.animationEndPC * 6 ≤ 2 ^ 31)
    (hfirst : ∀ a ∈ inps.head?, 0 < a.tCond)
    (hclock : List.Chain' (fun a b : FrameInput =>
      ∃ f : ℚ, env.toFloat f = f ∧ a.tBody ≤ f ∧ f < b.tCond) inps) :
    (run env cfg inps).drawn.length = inps.length ∧ (run env cfg inps).aborted = false := by
  have := timed_all_advance env cfg h hi hmono h0 inps (initState cfg) rfl h0 hfirst hclock
  simpa [run, initState] using this

/-- Witness for the amended C10: interval 0, clock readings 1, 1, 2, 2; the
clock passes the float 1 between the first advance and the second test. -/
theorem nonpositive_interval_all_advance_witness :
    ({ defaults with animationIntervalSeconds := 0 } : Config).step = false ∧
    ({ defaults with animationIntervalSeconds := 0 } : Config).animationIntervalSeconds ≤ 0 ∧
    Monotone exactEnv.toFloat ∧
    (defaults.startPolygonCount * 6 < 2 ^ 31 ∧ defaults.animationEndPC * 6 ≤ 2 ^ 31) ∧
    (run exactEnv { defaults with animationIntervalSeconds := 0 }
      [⟨1, 1, []⟩, ⟨2, 2, []⟩]).drawn.length =
      [(⟨1, 1, []⟩ : FrameInput), ⟨2, 2, []⟩].length ∧
    (run exactEnv { defaults with animationIntervalSeconds := 0 }
      [⟨1, 1, []⟩, ⟨2, 2, []⟩]).aborted = false :=
  ⟨rfl, le_refl _, fun _ _ hab => hab, by decide,
    nonpositive_interval_all_advance exactEnv { defaults with animationIntervalSeconds := 0 }
      [⟨1, 1, []⟩, ⟨2, 2, []⟩] rfl (le_refl _) (fun _ _ hab => hab) (by decide) (by decide)
      (by simp) (by simp [exactEnv]; exact ⟨1, by norm_num, by norm_num⟩)⟩

end Ctri
